import Mathlib

/-!
Shallow embedding of the triage core of `src/email_triage.py`
(class `EmailTriageSystem`), covering:

* `fallback_classification`   (keyword fallback classifier)
* `classify_and_summarize_email` (AI adapter: parse / validate / fall back)
* `extract_keywords`          (regex tokenizer + stop-word filter)
* `update_analytics`          (per-category keyword accumulation + record log)
* `generate_keyword_analytics` (top-5 keyword snapshot + per-category totals)
* `run_triage_workflow`       (per-message orchestration loop)

Modelling conventions:
* Python strings are Lean `String`s; `str.lower`, the regex word class and
  word boundaries are modelled over ASCII (the Python code is exercised on
  ASCII content; `re.findall(r'\b[a-zA-Z]{3,}\b', t)` returns exactly the
  maximal word-character runs of `t` that consist solely of ASCII letters
  and have length at least 3 — a run adjacent to a digit or underscore is
  rejected whole, because the boundary assertion fails at its edges and
  every interior position is preceded by a word character).
* The external AI call is an oracle `AIOutcome`: either the raised-exception
  path or a returned response text.  Everything after `response.text.strip()`
  is pure Python string code and is embedded directly.
* The external HTTP dispatch is an oracle `DispatchOutcome`; the Python
  function catches every exception and maps the outcome to a `Bool`, which
  the workflow loop discards.
* Python `Counter(xs).most_common(5)`: `Counter` iterates keys in first
  insertion order and `most_common` is a stable descending sort by count,
  truncated to 5; embedded as `counterOf` and a stable insertion sort.
-/

namespace EmailTriage

/-- An inbound email, as built by `fetch_unread_emails` (dict with keys
`id`, `subject`, `sender`, `body`, `timestamp`). -/
structure Message where
  id : String
  subject : String
  sender : String
  body : String
  timestamp : String
deriving DecidableEq, Repr

/-- `self.categories = ["Product Support", "Billing", "General Inquiry"]`. -/
def categories : List String := ["Product Support", "Billing", "General Inquiry"]

/-- ASCII model of lower-casing a single character (Python `str.lower`). -/
def lowerChar (c : Char) : Char :=
  if 65 ≤ c.toNat ∧ c.toNat ≤ 90 then Char.ofNat (c.toNat + 32) else c

/-- Python `text.lower()`, character-wise. -/
def lowerStr (s : String) : String := ⟨s.data.map lowerChar⟩

/-- The regex class `[a-zA-Z]`. -/
def isAsciiLetter (c : Char) : Bool :=
  decide ((65 ≤ c.toNat ∧ c.toNat ≤ 90) ∨ (97 ≤ c.toNat ∧ c.toNat ≤ 122))

/-- The regex word class `\w` (ASCII): letters, digits, underscore. -/
def isWordChar (c : Char) : Bool :=
  isAsciiLetter c || decide (48 ≤ c.toNat ∧ c.toNat ≤ 57) || c == '_'

/-- `beginsWith t p` holds when `p` is an initial segment of `t`. -/
def beginsWith : List Char → List Char → Bool
  | _, [] => true
  | [], _ :: _ => false
  | c :: cs, p :: ps => c == p && beginsWith cs ps

/-- `containsSub t p` holds when `p` occurs contiguously inside `t` —
Python's `p in t` on strings. -/
def containsSub : List Char → List Char → Bool
  | [], pat => beginsWith [] pat
  | c :: rest, pat => beginsWith (c :: rest) pat || containsSub rest pat

/-- Python `pat in text` for strings. -/
def strContains (text pat : String) : Bool := containsSub text.data pat.data

/-- The Product-Support trigger list of `fallback_classification`. -/
def psTriggers : List String :=
  ["bug", "error", "not working", "issue", "problem", "feature"]

/-- The Billing trigger list of `fallback_classification`. -/
def billingTriggers : List String :=
  ["bill", "payment", "invoice", "charge", "refund", "price"]

/-- The summary synthesized by `fallback_classification`:
`f"Email from {sender} - {subject[:30]}..."`. -/
def fallbackSummary (m : Message) : String :=
  "Email from " ++ m.sender ++ " - " ++ m.subject.take 30 ++ "..."

/-- `EmailTriageSystem.fallback_classification` (lines 208-222). -/
def fallback_classification (m : Message) : String × String :=
  let text := lowerStr (m.subject ++ " " ++ m.body)
  let category :=
    if psTriggers.any (fun w => strContains text w) then "Product Support"
    else if billingTriggers.any (fun w => strContains text w) then "Billing"
    else "General Inquiry"
  (category, fallbackSummary m)

/-- Outcome of the external `self.model.generate_content(prompt)` call:
either the except-path (any exception while producing `response.text`) or a
returned response text. -/
inductive AIOutcome where
  | failure
  | success (responseText : String)

/-- ASCII whitespace, as stripped by Python `str.strip()`. -/
def isSpaceChar (c : Char) : Bool :=
  c == ' ' || c == '\t' || c == '\n' || c == '\r' || c == '\x0b' || c == '\x0c'

/-- Python `str.strip()` (ASCII model): drop whitespace at both ends. -/
def trimChars (l : List Char) : List Char :=
  ((l.dropWhile isSpaceChar).reverse.dropWhile isSpaceChar).reverse

/-- Python `str.split(sep)` for a one-character separator, keeping empty
pieces. -/
def splitOnChar (sep : Char) (l : List Char) : List (List Char) :=
  l.foldr
    (fun c acc =>
      if c == sep then [] :: acc
      else
        match acc with
        | [] => [[c]]
        | a :: rest => (c :: a) :: rest)
    [[]]

/-- Auxiliary for `removeAll`: while the counter is positive, skip
characters already consumed by a match; at zero, try to match the pattern
at the current position (Python `str.replace(pat, '')` scans left to right
and skips each non-overlapping match). -/
def removeAllAux (pat : List Char) : Nat → List Char → List Char
  | _, [] => []
  | Nat.succ k, _ :: cs => removeAllAux pat k cs
  | 0, c :: cs =>
    if beginsWith (c :: cs) pat && !pat.isEmpty then
      removeAllAux pat (pat.length - 1) cs
    else c :: removeAllAux pat 0 cs

/-- Python `str.replace(pat, '')` for a non-empty literal pattern: delete
every non-overlapping occurrence, scanning left to right. -/
def removeAll (pat l : List Char) : List Char := removeAllAux pat 0 l

/-- The parsing loop of `classify_and_summarize_email` (lines 180-191):
strip the response, split on newlines, and fold over the lines, recording
the text after a `Category:` marker and after a `Summary:` marker
(`str.replace` removes every occurrence; later matching lines override
earlier ones; the markers are tested with `startswith`/`elif`). -/
def parseResponse (responseText : String) : Option String × Option String :=
  (splitOnChar '\n' (trimChars responseText.data)).foldl
    (fun acc line =>
      if beginsWith line ("Category:").data then
        (some ⟨trimChars (removeAll ("Category:").data line)⟩, acc.2)
      else if beginsWith line ("Summary:").data then
        (acc.1, some ⟨trimChars (removeAll ("Summary:").data line)⟩)
      else acc)
    (none, none)

/-- The summary synthesized by the AI adapter when none was parsed:
`f"Email from {email_data['sender']} regarding {email_data['subject']}"`. -/
def aiSynthSummary (m : Message) : String :=
  "Email from " ++ m.sender ++ " regarding " ++ m.subject

/-- `EmailTriageSystem.classify_and_summarize_email` (lines 163-206).
On the exception path the Python code returns
`self.fallback_classification(email_data)`; on a returned response it parses
the two markers, replaces an unrecognized (or absent) category with
`"General Inquiry"`, and replaces a falsy (absent or empty) summary with the
synthesized one. -/
def classify_and_summarize_email (m : Message) (ai : AIOutcome) : String × String :=
  match ai with
  | .failure => fallback_classification m
  | .success t =>
    let parsed := parseResponse t
    let category :=
      match parsed.1 with
      | some c => if c ∈ categories then c else "General Inquiry"
      | none => "General Inquiry"
    let summary :=
      match parsed.2 with
      | some s => if s = "" then aiSynthSummary m else s
      | none => aiSynthSummary m
    (category, summary)

/-- The `stop_words` set of `extract_keywords` (line 288). -/
def stop_words : List String :=
  ["the", "is", "at", "which", "on", "and", "a", "to", "are", "as", "was",
   "for", "with", "this", "that", "it", "from", "by", "have", "has", "had",
   "be", "been", "or", "an", "will", "can", "could", "would", "should"]

/-- Accumulator pass splitting a character list into its maximal runs of
word characters (`acc` holds the current run, reversed). -/
def wordRunsAux : List Char → List Char → List (List Char)
  | acc, [] => if acc.isEmpty then [] else [acc.reverse]
  | acc, c :: cs =>
    if isWordChar c then wordRunsAux (c :: acc) cs
    else if acc.isEmpty then wordRunsAux [] cs
    else acc.reverse :: wordRunsAux [] cs

/-- The maximal word-character runs of a character list, in order. -/
def wordRuns (cs : List Char) : List (List Char) := wordRunsAux [] cs

/-- `re.findall(r'\b[a-zA-Z]{3,}\b', text)`: the maximal word-character
runs that are all ASCII letters and at least 3 long (see the header note). -/
def regexTokens (text : String) : List String :=
  ((wordRuns text.data).filter
      (fun r => r.all isAsciiLetter && decide (3 ≤ r.length))).map
    (fun r => ⟨r⟩)

/-- `EmailTriageSystem.extract_keywords` (lines 285-296): run the regex on
the lowered text, then keep words that are not stop words and have length
greater than 2. -/
def extract_keywords (text : String) : List String :=
  let words := regexTokens (lowerStr text)
  words.filter (fun w => decide (w ∉ stop_words) && decide (2 < w.length))

/-- One entry of `self.processed_emails` (lines 308-315). -/
structure TriageRecord where
  timestamp : String
  category : String
  summary : String
  sender : String
  subject : String
  keywords : List String
deriving DecidableEq, Repr

/-- The mutable analytics state of `EmailTriageSystem`: the record log and
the per-category keyword lists (`self.category_keywords`, a dict keyed by
the three category names and read/written only at validated categories,
modelled as a total map that is empty away from the three keys). -/
structure TriageState where
  processed_emails : List TriageRecord
  category_keywords : String → List String

/-- The state built by `__init__`: no records, all keyword lists empty. -/
def initState : TriageState := ⟨[], fun _ => []⟩

/-- `EmailTriageSystem.update_analytics` (lines 298-315): extract keywords
from `f"{subject} {body}"`, extend the category's keyword list, append a
record. -/
def update_analytics (s : TriageState) (m : Message) (category summary : String) :
    TriageState :=
  let kws := extract_keywords (m.subject ++ " " ++ m.body)
  { processed_emails :=
      s.processed_emails ++
        [⟨m.timestamp, category, summary, m.sender, m.subject, kws⟩],
    category_keywords := fun c =>
      if c = category then s.category_keywords c ++ kws
      else s.category_keywords c }

/-- `collections.Counter` insertion: bump an existing key in place, else
append the key at the end with count 1 (keys stay in first-seen order). -/
def counterAdd : List (String × Nat) → String → List (String × Nat)
  | [], k => [(k, 1)]
  | (k0, n) :: rest, k =>
    if k0 = k then (k0, n + 1) :: rest else (k0, n) :: counterAdd rest k

/-- `collections.Counter(ks)` as an association list in first-seen order. -/
def counterOf (ks : List String) : List (String × Nat) := ks.foldl counterAdd []

/-- The comparison used by `Counter.most_common`: counts descending. -/
def countGE (a b : String × Nat) : Prop := b.2 ≤ a.2

instance : DecidableRel countGE := fun a b => Nat.decLe b.2 a.2

instance : IsTotal (String × Nat) countGE :=
  ⟨fun a b => Or.symm (Nat.le_total a.2 b.2)⟩

instance : IsTrans (String × Nat) countGE :=
  ⟨fun _ _ _ hab hbc => Nat.le_trans hbc hab⟩

/-- `Counter.most_common(n)`: stable sort by descending count, take `n`. -/
def most_common (l : List (String × Nat)) (n : Nat) : List (String × Nat) :=
  (List.insertionSort countGE l).take n

/-- `EmailTriageSystem.generate_keyword_analytics` (lines 317-335),
specialized to one category: the `(top_keywords, total_emails)` pair.  An
empty (falsy) keyword list takes the else-branch `([], 0)`; otherwise the
count of records with this category is reported. -/
def generate_keyword_analytics (s : TriageState) (category : String) :
    List (String × Nat) × Nat :=
  let kws := s.category_keywords category
  if kws = [] then ([], 0)
  else
    (most_common (counterOf kws) 5,
     s.processed_emails.countP (fun r => r.category == category))

/-- Sum of `total_emails` over the category enumeration, as printed by the
analytics summary. -/
def analyticsTotals (s : TriageState) : Nat :=
  (categories.map (fun c => (generate_keyword_analytics s c).2)).sum

/-- Outcome of the external `requests.post` call inside
`send_slack_notification`: a completed HTTP exchange with some status code,
or an exception anywhere in the try-block. -/
inductive DispatchOutcome where
  | completed (statusCode : Nat)
  | raised

/-- `EmailTriageSystem.send_slack_notification` (lines 224-274): returns
`True` exactly on status 200; every exception is caught and yields
`False`.  No exception escapes. -/
def send_slack_notification : DispatchOutcome → Bool
  | .completed code => code == 200
  | .raised => false

/-- One iteration of the loop in `run_triage_workflow` (lines 412-425):
classify, request dispatch (result discarded by the loop), record. -/
def processMessage (s : TriageState) (m : Message) (ai : AIOutcome)
    (d : DispatchOutcome) : TriageState :=
  let cs := classify_and_summarize_email m ai
  let _notified := send_slack_notification d
  update_analytics s m cs.1 cs.2

/-- The per-message loop of `EmailTriageSystem.run_triage_workflow` over a
pre-fetched batch, with the two external calls supplied as oracles. -/
def run_triage_workflow (msgs : List Message) (ai : Message → AIOutcome)
    (dispatch : Message → DispatchOutcome) : TriageState :=
  msgs.foldl (fun s m => processMessage s m (ai m) (dispatch m)) initState

/-- A sequence of `update_analytics` calls applied to the fresh state, each
update carrying the message and the `(category, summary)` it was classified
with. -/
def runUpdates (ups : List (Message × String × String)) : TriageState :=
  ups.foldl (fun s u => update_analytics s u.1 u.2.1 u.2.2) initState

/-- Invariant relating the two analytics stores: each category's keyword
list is the concatenation, in log order, of the keywords of the records
carrying that category. -/
def catKeywordsInv (s : TriageState) : Prop :=
  ∀ cat : String,
    s.category_keywords cat =
      ((s.processed_emails.filter (fun r => r.category == cat)).map
          TriageRecord.keywords).flatten

/-- Every logged record has a non-empty keyword list and a category from
the enumeration. -/
def recordsOK (s : TriageState) : Prop :=
  ∀ r ∈ s.processed_emails, r.keywords ≠ [] ∧ r.category ∈ categories

end EmailTriage

namespace EmailTriage

set_option maxRecDepth 8000

/-! ### Helper lemmas -/

theorem ne_empty_of_left_length {a b : String} (h : a.length ≠ 0) : a ++ b ≠ "" := by
  intro he
  have hlen : (a ++ b).length = 0 := by rw [he]; rfl
  rw [String.length_append] at hlen
  omega

theorem aiSynth_ne_empty (m : Message) : aiSynthSummary m ≠ "" := by
  have h1 : ("Email from " ++ m.sender ++ " regarding ").length ≠ 0 := by
    rw [String.length_append, String.length_append]
    have h11 : ("Email from ").length = 11 := rfl
    omega
  exact ne_empty_of_left_length h1

theorem fallbackSummary_ne_empty (m : Message) : fallbackSummary m ≠ "" := by
  have h1 : ("Email from " ++ m.sender ++ " - " ++ m.subject.take 30).length ≠ 0 := by
    rw [String.length_append, String.length_append, String.length_append]
    have h11 : ("Email from ").length = 11 := rfl
    omega
  exact ne_empty_of_left_length h1

theorem fallback_snd (m : Message) : (fallback_classification m).2 = fallbackSummary m := rfl

theorem fallback_fst_mem (m : Message) : (fallback_classification m).1 ∈ categories := by
  unfold fallback_classification
  dsimp only
  split_ifs <;> simp [categories]

/-! ### Claim C3 -/

/-- Claim C3: the fallback classifier is a pure, total function: it
lower-cases the concatenation of subject and body and tests the trigger
lists in fixed priority order — Product Support triggers first, Billing
triggers second, else General Inquiry, the first matching list winning —
and the summary is synthesized deterministically from the sender and the
subject truncated to 30 characters; identical message content yields the
identical result. -/
theorem fallback_priority_and_purity :
    (∀ m : Message,
        psTriggers.any
            (fun w => strContains (lowerStr (m.subject ++ " " ++ m.body)) w) = true →
        (fallback_classification m).1 = "Product Support") ∧
    (∀ m : Message,
        psTriggers.any
            (fun w => strContains (lowerStr (m.subject ++ " " ++ m.body)) w) = false →
        billingTriggers.any
            (fun w => strContains (lowerStr (m.subject ++ " " ++ m.body)) w) = true →
        (fallback_classification m).1 = "Billing") ∧
    (∀ m : Message,
        psTriggers.any
            (fun w => strContains (lowerStr (m.subject ++ " " ++ m.body)) w) = false →
        billingTriggers.any
            (fun w => strContains (lowerStr (m.subject ++ " " ++ m.body)) w) = false →
        (fallback_classification m).1 = "General Inquiry") ∧
    (∀ m : Message, (fallback_classification m).2 =
        "Email from " ++ m.sender ++ " - " ++ m.subject.take 30 ++ "...") ∧
    (∀ m m' : Message, m.subject = m'.subject → m.sender = m'.sender →
        m.body = m'.body →
        fallback_classification m = fallback_classification m') := by
  refine ⟨?_, ?_, ?_, ?_, ?_⟩
  · intro m h
    simp [fallback_classification, h]
  · intro m h1 h2
    simp [fallback_classification, h1, h2]
  · intro m h1 h2
    simp [fallback_classification, h1, h2]
  · intro m
    rfl
  · intro m m' h1 h2 h3
    simp only [fallback_classification, fallbackSummary, h1, h2, h3]

/-- Witness for C3 at a concrete message carrying the trigger `error`. -/
theorem fallback_priority_and_purity_witness :
    psTriggers.any
        (fun w =>
          strContains
            (lowerStr (("Login issue" : String) ++ " " ++ "error invalid credentials")) w) =
      true ∧
    (fallback_classification
        ⟨"1", "Login issue", "u@x.com", "error invalid credentials", "t0"⟩).1 =
      "Product Support" :=
  ⟨by decide,
   fallback_priority_and_purity.1
     ⟨"1", "Login issue", "u@x.com", "error invalid credentials", "t0"⟩ (by decide)⟩

/-! ### Claim C9 -/

/-- Claim C9: trigger matching is substring-based, not token-based: any
message whose lowered subject-plus-body contains `error` anywhere — also
inside a larger word — is classified Product Support by the fallback. -/
theorem fallback_substring_matching :
    ∀ m : Message,
      strContains (lowerStr (m.subject ++ " " ++ m.body)) "error" = true →
      (fallback_classification m).1 = "Product Support" := by
  intro m h
  have hany : psTriggers.any
      (fun w => strContains (lowerStr (m.subject ++ " " ++ m.body)) w) = true := by
    simp only [List.any_eq_true]
    exact ⟨"error", by simp [psTriggers], h⟩
  simp [fallback_classification, hany]

/-- Witness for C9: a message where `error` occurs only inside `terror`
(never as a standalone token of the text) is still Product Support. -/
theorem fallback_substring_matching_witness :
    strContains
        (lowerStr (("Terror movie" : String) ++ " " ++ "I watched terror films"))
        "error" = true ∧
    ("error" ∈
        regexTokens
          (lowerStr (("Terror movie" : String) ++ " " ++ "I watched terror films")) →
      False) ∧
    (fallback_classification
        ⟨"1", "Terror movie", "a@b", "I watched terror films", "t0"⟩).1 =
      "Product Support" :=
  ⟨by decide, by decide,
   fallback_substring_matching
     ⟨"1", "Terror movie", "a@b", "I watched terror films", "t0"⟩ (by decide)⟩

/-! ### Claim C1 -/

/-- Claim C1: for every message and every outcome of the AI call,
`classify_and_summarize_email` returns exactly one result — the validated
AI result on a returned response, the fallback result on the exception
path — whose category belongs to the fixed enumeration and whose summary
is non-empty; the function is total, so no exception escapes. -/
theorem classify_total_coverage :
    ∀ (m : Message) (ai : AIOutcome),
      ((classify_and_summarize_email m ai).1 ∈ categories ∧
        (classify_and_summarize_email m ai).2 ≠ "") ∧
      classify_and_summarize_email m .failure = fallback_classification m := by
  intro m ai
  refine ⟨?_, rfl⟩
  cases ai with
  | failure =>
    refine ⟨fallback_fst_mem m, ?_⟩
    show (fallback_classification m).2 ≠ ""
    rw [fallback_snd]
    exact fallbackSummary_ne_empty m
  | success t =>
    unfold classify_and_summarize_email
    dsimp only
    constructor
    · cases hc : (parseResponse t).1 with
      | none => simp [hc, categories]
      | some c =>
        show (if c ∈ categories then c else "General Inquiry") ∈ categories
        by_cases hmem : c ∈ categories
        · rw [if_pos hmem]; exact hmem
        · rw [if_neg hmem]; simp [categories]
    · cases hs : (parseResponse t).2 with
      | none => simpa [hs] using aiSynth_ne_empty m
      | some s =>
        show (if s = "" then aiSynthSummary m else s) ≠ ""
        by_cases hse : s = ""
        · rw [if_pos hse]; exact aiSynth_ne_empty m
        · rw [if_neg hse]; exact hse

/-! ### Claim C7 -/

/-- Claim C7: when the response parses and the extracted category is not an
exact member of the enumeration, the adapter substitutes General Inquiry
while keeping the parsed summary — it neither rejects the response nor
invokes the fallback classifier, and no error is propagated. -/
theorem invalid_category_substituted :
    ∀ (m : Message) (t c s : String),
      parseResponse t = (some c, some s) → c ∉ categories → s ≠ "" →
      classify_and_summarize_email m (.success t) = ("General Inquiry", s) := by
  intro m t c s hparse hc hs
  have h1 : (classify_and_summarize_email m (.success t)).1 = "General Inquiry" := by
    show (match (parseResponse t).1 with
        | some c0 => if c0 ∈ categories then c0 else "General Inquiry"
        | none => "General Inquiry") = "General Inquiry"
    rw [hparse]
    exact if_neg hc
  have h2 : (classify_and_summarize_email m (.success t)).2 = s := by
    show (match (parseResponse t).2 with
        | some s0 => if s0 = "" then aiSynthSummary m else s0
        | none => aiSynthSummary m) = s
    rw [hparse]
    exact if_neg hs
  exact Prod.ext h1 h2

/-- Witness for C7: a response naming the unknown category `Spam` yields
General Inquiry with the parsed summary retained. -/
theorem invalid_category_substituted_witness :
    parseResponse "Category: Spam\nSummary: Refund request" =
      (some "Spam", some "Refund request") ∧
    ("Spam" : String) ∉ categories ∧
    ("Refund request" : String) ≠ "" ∧
    classify_and_summarize_email ⟨"1", "S", "a@b", "B", "t"⟩
        (.success "Category: Spam\nSummary: Refund request") =
      ("General Inquiry", "Refund request") :=
  ⟨by decide, by decide, by decide,
   invalid_category_substituted ⟨"1", "S", "a@b", "B", "t"⟩
     "Category: Spam\nSummary: Refund request" "Spam" "Refund request"
     (by decide) (by decide) (by decide)⟩

/-! ### Claim C8 -/

/-- The two summary-synthesis schemes never produce the same string: past
the shared prefix `"Email from " ++ sender`, one continues with
`" regarding "` and the other with `" - "`. -/
theorem aiSynth_ne_fallbackSummary (m : Message) :
    aiSynthSummary m ≠ fallbackSummary m := by
  intro h
  have hd := congrArg String.data h
  rw [aiSynthSummary, fallbackSummary] at hd
  repeat rw [String.data_append] at hd
  repeat rw [List.append_assoc] at hd
  have h2 := List.append_cancel_left hd
  have h3 := List.append_cancel_left h2
  have e1 : (" regarding " : String).data =
      ' ' :: 'r' :: ("egarding " : String).data := rfl
  have e2 : (" - " : String).data = ' ' :: '-' :: (" " : String).data := rfl
  rw [e1, e2] at h3
  rw [List.cons_append, List.cons_append, List.cons_append, List.cons_append] at h3
  injection h3 with ha hb
  injection hb with hc hdd
  exact absurd hc (by decide)

/-- Counterexample to C8 as stated: for a concrete message whose AI
response carries no summary line, the summary synthesized by the adapter
differs from the fallback classifier's summary for the same message. -/
theorem adapter_summary_differs_counterexample :
    (parseResponse "Category: Billing").2 = none ∧
    (classify_and_summarize_email ⟨"1", "Hello", "a@b", "x", "t"⟩
          (.success "Category: Billing")).2 ≠
      (fallback_classification ⟨"1", "Hello", "a@b", "x", "t"⟩).2 := by
  constructor
  · decide
  · decide

/-- Claim C8, corrected: when the AI adapter extracts no summary it
synthesizes `"Email from {sender} regarding {subject}"`, while the fallback
classifier synthesizes `"Email from {sender} - {subject[:30]}..."`; the two
schemes are distinct, and never coincide on any message. -/
theorem adapter_and_fallback_summaries_differ :
    ∀ (m : Message) (t : String),
      (parseResponse t).2 = none →
      (classify_and_summarize_email m (.success t)).2 = aiSynthSummary m ∧
      aiSynthSummary m ≠ fallbackSummary m ∧
      (fallback_classification m).2 = fallbackSummary m := by
  intro m t hs
  refine ⟨?_, aiSynth_ne_fallbackSummary m, rfl⟩
  show (match (parseResponse t).2 with
      | some s0 => if s0 = "" then aiSynthSummary m else s0
      | none => aiSynthSummary m) = aiSynthSummary m
  rw [hs]

/-- Witness for the corrected C8 at a summary-free response. -/
theorem adapter_and_fallback_summaries_differ_witness :
    (parseResponse "Category: Billing").2 = none ∧
    (classify_and_summarize_email ⟨"1", "Hello", "a@b", "x", "t"⟩
          (.success "Category: Billing")).2 =
      aiSynthSummary ⟨"1", "Hello", "a@b", "x", "t"⟩ :=
  ⟨by decide,
   (adapter_and_fallback_summaries_differ ⟨"1", "Hello", "a@b", "x", "t"⟩
       "Category: Billing" (by decide)).1⟩

/-! ### Claim C4 -/

/-- The record log produced by the workflow loop, started from any state,
lists every processed message in fetch order, after the records already
present. -/
theorem workflow_processed_map (ai : Message → AIOutcome)
    (d : Message → DispatchOutcome) :
    ∀ (msgs : List Message) (s : TriageState),
      ((msgs.foldl (fun s m => processMessage s m (ai m) (d m))
            s).processed_emails).map (fun r => (r.sender, r.subject)) =
        s.processed_emails.map (fun r => (r.sender, r.subject)) ++
          msgs.map (fun m => (m.sender, m.subject)) := by
  intro msgs
  induction msgs with
  | nil => intro s; simp
  | cons m rest ih =>
    intro s
    rw [List.foldl_cons, ih]
    simp [processMessage, update_analytics]

/-- Claim C4: a notification-dispatch failure for any message neither
aborts the batch nor prevents that message's analytics recording: the
workflow's final state does not depend on the dispatch outcomes at all, and
the record log lists every message of the batch, in fetch order. -/
theorem dispatch_failure_never_aborts :
    ∀ (msgs : List Message) (ai : Message → AIOutcome)
      (d1 d2 : Message → DispatchOutcome),
      run_triage_workflow msgs ai d1 = run_triage_workflow msgs ai d2 ∧
      ((run_triage_workflow msgs ai d1).processed_emails).map
          (fun r => (r.sender, r.subject)) =
        msgs.map (fun m => (m.sender, m.subject)) := by
  intro msgs ai d1 d2
  constructor
  · rfl
  · rw [run_triage_workflow, workflow_processed_map]
    rfl

/-! ### Claim C10 -/

/-- Claim C10: every extracted keyword is a whole maximal word-character
run of the lowered text consisting purely of letters; consequently a
maximal run mixing letters and digits (such as `newuser123` or
`order12345`) contributes no keyword at all — not even its alphabetic
prefix or suffix — as the concrete evaluation shows. -/
theorem mixed_alnum_runs_excluded :
    (∀ (text w : String), w ∈ extract_keywords text →
        w.data ∈ wordRuns (lowerStr text).data ∧
          w.data.all isAsciiLetter = true) ∧
    extract_keywords "Contact newuser123 about order12345" =
      ["contact", "about"] := by
  constructor
  · intro text w hw
    rw [extract_keywords] at hw
    rw [List.mem_filter] at hw
    obtain ⟨hw1, _⟩ := hw
    rw [regexTokens, List.mem_map] at hw1
    obtain ⟨r, hr, hmk⟩ := hw1
    rw [List.mem_filter] at hr
    obtain ⟨hrmem, hrpred⟩ := hr
    subst hmk
    rw [Bool.and_eq_true] at hrpred
    exact ⟨hrmem, hrpred.1⟩
  · decide

/-- Witness for C10's universal part at a concrete token. -/
theorem mixed_alnum_runs_excluded_witness :
    ("hello" : String) ∈ extract_keywords "hello world" ∧
    ("hello" : String).data ∈ wordRuns (lowerStr "hello world").data ∧
    ("hello" : String).data.all isAsciiLetter = true :=
  ⟨by decide,
   (mixed_alnum_runs_excluded.1 "hello world" "hello" (by decide)).1,
   (mixed_alnum_runs_excluded.1 "hello world" "hello" (by decide)).2⟩

/-! ### Claim C5 -/

/-- `Char.ofNat` round-trips through `toNat` on valid small codes. -/
theorem char_ofNat_toNat (m : Nat) (h : m ≤ 122) : (Char.ofNat m).toNat = m := by
  have hv : Nat.isValidChar m := Or.inl (by omega)
  simp [Char.ofNat, hv, Char.ofNatAux, Char.toNat, UInt32.toNat,
    BitVec.toNat_ofNatLt]

/-- After lower-casing, a character that is still an ASCII letter lies in
the range `a`-`z`. -/
theorem lowerChar_alpha_lower (c : Char) :
    isAsciiLetter (lowerChar c) = true →
    97 ≤ (lowerChar c).toNat ∧ (lowerChar c).toNat ≤ 122 := by
  intro h
  by_cases hc : 65 ≤ c.toNat ∧ c.toNat ≤ 90
  · have he : lowerChar c = Char.ofNat (c.toNat + 32) := by
      rw [lowerChar, if_pos hc]
    have ht : (Char.ofNat (c.toNat + 32)).toNat = c.toNat + 32 :=
      char_ofNat_toNat (c.toNat + 32) (by omega)
    rw [he, ht]
    omega
  · have he : lowerChar c = c := by rw [lowerChar, if_neg hc]
    rw [he] at h ⊢
    have h2 := of_decide_eq_true h
    omega

/-- Every character of every run produced by `wordRunsAux` comes from the
accumulator or from the remaining input. -/
theorem wordRunsAux_chars :
    ∀ (cs acc r : List Char), r ∈ wordRunsAux acc cs →
      ∀ c ∈ r, c ∈ acc ∨ c ∈ cs := by
  intro cs
  induction cs with
  | nil =>
    intro acc r hr c hcr
    rw [wordRunsAux] at hr
    by_cases ha : acc.isEmpty
    · rw [if_pos ha] at hr
      simp at hr
    · rw [if_neg ha] at hr
      rw [List.mem_singleton] at hr
      subst hr
      exact Or.inl (List.mem_reverse.mp hcr)
  | cons c0 cs0 ih =>
    intro acc r hr c hcr
    rw [wordRunsAux] at hr
    by_cases hw : isWordChar c0
    · rw [if_pos hw] at hr
      rcases ih (c0 :: acc) r hr c hcr with h | h
      · rcases List.mem_cons.mp h with h | h
        · exact Or.inr (by rw [h]; exact List.mem_cons_self _ _)
        · exact Or.inl h
      · exact Or.inr (List.mem_cons_of_mem _ h)
    · rw [if_neg hw] at hr
      by_cases ha : acc.isEmpty
      · rw [if_pos ha] at hr
        rcases ih [] r hr c hcr with h | h
        · simp at h
        · exact Or.inr (List.mem_cons_of_mem _ h)
      · rw [if_neg ha] at hr
        rcases List.mem_cons.mp hr with h | h
        · subst h
          exact Or.inl (List.mem_reverse.mp hcr)
        · rcases ih [] r h c hcr with h2 | h2
          · simp at h2
          · exact Or.inr (List.mem_cons_of_mem _ h2)

/-- Claim C5: the keyword extractor is a deterministic pure function: every
output token is a lowercase word of 3 or more alphabetic characters and not
a stop word; the output is a sublist of the token stream of the lowered
text, so tokens keep source order; every eligible token occurs in the
output exactly as many times as it occurs as a word run of the lowered
text, so duplicates are preserved; and running it twice on the same text
yields identical sequences. -/
theorem extract_keywords_props :
    ∀ text : String,
      (∀ w ∈ extract_keywords text,
          3 ≤ w.length ∧
          w.data.all (fun c => decide (97 ≤ c.toNat ∧ c.toNat ≤ 122)) = true ∧
          w ∉ stop_words) ∧
      ((extract_keywords text).map String.data).Sublist
        (wordRuns (lowerStr text).data) ∧
      (∀ w : String,
          w.data.all isAsciiLetter = true → 3 ≤ w.length → w ∉ stop_words →
          (extract_keywords text).count w =
            (wordRuns (lowerStr text).data).count w.data) ∧
      extract_keywords text = extract_keywords text := by
  intro text
  refine ⟨?_, ?_, ?_, rfl⟩
  · intro w hw
    rw [extract_keywords] at hw
    rw [List.mem_filter] at hw
    obtain ⟨hw1, hw2⟩ := hw
    rw [Bool.and_eq_true] at hw2
    have hstop : w ∉ stop_words := of_decide_eq_true hw2.1
    rw [regexTokens, List.mem_map] at hw1
    obtain ⟨r, hr, hmk⟩ := hw1
    rw [List.mem_filter] at hr
    obtain ⟨hrmem, hrpred⟩ := hr
    rw [Bool.and_eq_true] at hrpred
    have hall : r.all isAsciiLetter = true := hrpred.1
    have hlen : 3 ≤ r.length := of_decide_eq_true hrpred.2
    subst hmk
    refine ⟨hlen, ?_, hstop⟩
    rw [List.all_eq_true]
    intro c hcr
    have hcl : isAsciiLetter c = true := by
      rw [List.all_eq_true] at hall
      exact hall c hcr
    have hcm : c ∈ text.data.map lowerChar := by
      rcases wordRunsAux_chars (lowerStr text).data [] r hrmem c hcr with h | h
      · simp at h
      · exact h
    obtain ⟨c0, _, hc0⟩ := List.mem_map.mp hcm
    rw [← hc0] at hcl ⊢
    exact decide_eq_true (lowerChar_alpha_lower c0 hcl)
  · rw [extract_keywords, regexTokens]
    refine List.Sublist.trans
      (List.Sublist.map String.data (List.filter_sublist _)) ?_
    rw [List.map_map]
    have hid : (String.data ∘ fun r : List Char => (⟨r⟩ : String)) = id := rfl
    rw [hid, List.map_id]
    exact List.filter_sublist _
  · intro w hall hlen hstop
    cases w with
    | mk d =>
    have h2 : (fun r : List Char =>
        r.all isAsciiLetter && decide (3 ≤ r.length)) d = true := by
      rw [Bool.and_eq_true]
      exact ⟨hall, decide_eq_true hlen⟩
    have h1 : (fun w : String =>
        decide (w ∉ stop_words) && decide (2 < w.length)) (⟨d⟩ : String) = true := by
      rw [Bool.and_eq_true]
      refine ⟨decide_eq_true hstop, decide_eq_true ?_⟩
      have h3 : 3 ≤ d.length := hlen
      omega
    have hmap : ∀ l : List (List Char),
        (l.map (fun r => (⟨r⟩ : String))).count (⟨d⟩ : String) = l.count d := by
      intro l
      induction l with
      | nil => rfl
      | cons a as ih =>
        rw [List.map_cons, List.count_cons, List.count_cons, ih]
        by_cases h : a = d
        · subst h
          rw [beq_self_eq_true, beq_self_eq_true]
        · have s1 : ((⟨a⟩ : String) == (⟨d⟩ : String)) = false :=
            beq_eq_false_iff_ne.mpr (fun e => h (congrArg String.data e))
          have s2 : (a == d) = false := beq_eq_false_iff_ne.mpr h
          rw [s1, s2]
    calc (extract_keywords text).count ⟨d⟩
        = ((((wordRuns (lowerStr text).data).filter
                (fun r => r.all isAsciiLetter && decide (3 ≤ r.length))).map
              (fun r : List Char => (⟨r⟩ : String))).filter
            (fun w => decide (w ∉ stop_words) && decide (2 < w.length))).count
            ⟨d⟩ := rfl
      _ = (((wordRuns (lowerStr text).data).filter
              (fun r => r.all isAsciiLetter && decide (3 ≤ r.length))).map
            (fun r : List Char => (⟨r⟩ : String))).count ⟨d⟩ :=
          List.count_filter h1
      _ = ((wordRuns (lowerStr text).data).filter
            (fun r => r.all isAsciiLetter && decide (3 ≤ r.length))).count d :=
          hmap _
      _ = (wordRuns (lowerStr text).data).count d := List.count_filter h2

/-- Witness for C5 at concrete texts and tokens; the second text carries
the token `error` twice and both occurrences survive into the output. -/
theorem extract_keywords_props_witness :
    ("error" : String) ∈ extract_keywords "An error Occurred" ∧
    (3 ≤ ("error" : String).length ∧
      ("error" : String).data.all
          (fun c => decide (97 ≤ c.toNat ∧ c.toNat ≤ 122)) = true ∧
      ("error" : String) ∉ stop_words) ∧
    ("error" : String).data.all isAsciiLetter = true ∧
    (extract_keywords "Some error then another error").count "error" =
      (wordRuns (lowerStr "Some error then another error").data).count
        ("error" : String).data ∧
    (extract_keywords "Some error then another error").count "error" = 2 :=
  ⟨by decide,
   (extract_keywords_props "An error Occurred").1 "error" (by decide),
   by decide,
   (extract_keywords_props "Some error then another error").2.2.1 "error"
     (by decide) (by decide) (by decide),
   by decide⟩

/-! ### Claim C6 -/

/-- Inserting an entry whose count equals `n` into a list places it before
every other count-`n` entry: the count-`n` entries of the result are the
inserted one followed by those of the original list. -/
theorem orderedInsert_filter_pos (x : String × Nat) (l : List (String × Nat))
    (n : Nat) (hx : x.2 = n) :
    (List.orderedInsert countGE x l).filter (fun q => q.2 == n) =
      x :: l.filter (fun q => q.2 == n) := by
  induction l with
  | nil =>
    rw [List.orderedInsert, List.filter_cons, if_pos (by rw [hx]; exact beq_self_eq_true n)]
  | cons y ys ih =>
    rw [List.orderedInsert]
    by_cases hr : countGE x y
    · rw [if_pos hr, List.filter_cons,
        if_pos (by rw [hx]; exact beq_self_eq_true n)]
    · rw [if_neg hr]
      have hy : ((y.2 == n) = false) := by
        rw [countGE] at hr
        rw [beq_eq_false_iff_ne]
        omega
      rw [List.filter_cons, hy, if_neg (by simp), ih,
        List.filter_cons, hy, if_neg (by simp)]

/-- Inserting an entry whose count differs from `n` leaves the count-`n`
entries unchanged. -/
theorem orderedInsert_filter_neg (x : String × Nat) (l : List (String × Nat))
    (n : Nat) (hx : x.2 ≠ n) :
    (List.orderedInsert countGE x l).filter (fun q => q.2 == n) =
      l.filter (fun q => q.2 == n) := by
  have hxf : ((x.2 == n) = false) := by rw [beq_eq_false_iff_ne]; exact hx
  induction l with
  | nil =>
    rw [List.orderedInsert, List.filter_cons, hxf, if_neg (by simp)]
  | cons y ys ih =>
    rw [List.orderedInsert]
    by_cases hr : countGE x y
    · rw [if_pos hr, List.filter_cons, hxf, if_neg (by simp)]
    · rw [if_neg hr, List.filter_cons, List.filter_cons, ih]

/-- The stable insertion sort used for `most_common` preserves, for every
count value, the original (first-seen) order of the entries carrying that
count. -/
theorem insertionSort_filter (l : List (String × Nat)) (n : Nat) :
    (List.insertionSort countGE l).filter (fun q => q.2 == n) =
      l.filter (fun q => q.2 == n) := by
  induction l with
  | nil => rfl
  | cons x xs ih =>
    rw [List.insertionSort]
    by_cases hx : x.2 = n
    · rw [orderedInsert_filter_pos x _ n hx, ih, List.filter_cons,
        if_pos (by rw [hx]; exact beq_self_eq_true n)]
    · rw [orderedInsert_filter_neg x _ n hx, ih, List.filter_cons,
        if_neg (by rw [beq_iff_eq]; exact hx)]

/-- Claim C6: for every analytics state and category, the top-keywords
sequence has length at most 5 and is ordered by descending count; for each
count value, its entries are an initial segment of the count-equal entries
of the underlying first-seen frequency table (ties broken first-seen
first); and a category with no recorded keywords yields the empty sequence,
not an error. -/
theorem top_keywords_bounded_sorted :
    ∀ (s : TriageState) (cat : String),
      (generate_keyword_analytics s cat).1.length ≤ 5 ∧
      List.Pairwise (fun a b : String × Nat => b.2 ≤ a.2)
        (generate_keyword_analytics s cat).1 ∧
      (∀ n : Nat, ∃ rest,
          (generate_keyword_analytics s cat).1.filter (fun q => q.2 == n) ++
              rest =
            (counterOf (s.category_keywords cat)).filter
              (fun q => q.2 == n)) ∧
      (s.category_keywords cat = [] →
        (generate_keyword_analytics s cat).1 = []) := by
  intro s cat
  by_cases hk : s.category_keywords cat = []
  · have hg : (generate_keyword_analytics s cat).1 = [] := by
      simp [generate_keyword_analytics, hk]
    refine ⟨by rw [hg]; simp, by rw [hg]; simp, ?_, fun _ => hg⟩
    intro n
    refine ⟨(counterOf (s.category_keywords cat)).filter (fun q => q.2 == n), ?_⟩
    rw [hg]
    rfl
  · have hg : (generate_keyword_analytics s cat).1 =
        (List.insertionSort countGE
            (counterOf (s.category_keywords cat))).take 5 := by
      simp [generate_keyword_analytics, hk, most_common]
    refine ⟨?_, ?_, ?_, fun h => absurd h hk⟩
    · rw [hg, List.length_take]
      exact inf_le_left
    · rw [hg]
      have hsorted := List.sorted_insertionSort countGE
        (counterOf (s.category_keywords cat))
      exact List.Pairwise.sublist (List.take_sublist 5 _) hsorted
    · intro n
      refine ⟨((List.insertionSort countGE
            (counterOf (s.category_keywords cat))).drop 5).filter
          (fun q => q.2 == n), ?_⟩
      rw [hg, ← List.filter_append, List.take_append_drop,
        insertionSort_filter]

/-- Witness for C6 at the empty state. -/
theorem top_keywords_bounded_sorted_witness :
    initState.category_keywords "Billing" = [] ∧
    (generate_keyword_analytics initState "Billing").1 = [] :=
  ⟨rfl, (top_keywords_bounded_sorted initState "Billing").2.2.2 rfl⟩

/-! ### Claim C2 -/

/-- `update_analytics` preserves the keyword/record invariant. -/
theorem update_preserves_inv (s : TriageState) (m : Message)
    (cat0 summ : String) (h : catKeywordsInv s) :
    catKeywordsInv (update_analytics s m cat0 summ) := by
  intro cat
  rw [update_analytics]
  dsimp only
  rw [List.filter_append, List.map_append, List.flatten_append]
  by_cases hc : cat = cat0
  · rw [if_pos hc, h cat, hc]
    rw [List.filter_cons, if_pos (beq_self_eq_true cat0), List.filter_nil]
    simp
  · rw [if_neg hc, h cat]
    rw [List.filter_cons, if_neg (by rw [beq_iff_eq]; exact fun e => hc e.symm),
      List.filter_nil]
    simp

/-- The keyword/record invariant holds after any sequence of updates. -/
theorem runUpdates_inv :
    ∀ (ups : List (Message × String × String)) (s : TriageState),
      catKeywordsInv s →
      catKeywordsInv
        (ups.foldl (fun s u => update_analytics s u.1 u.2.1 u.2.2) s) := by
  intro ups
  induction ups with
  | nil => intro s h; exact h
  | cons u rest ih =>
    intro s h
    rw [List.foldl_cons]
    exact ih _ (update_preserves_inv s u.1 u.2.1 u.2.2 h)

/-- When every update carries a keyword-bearing message and an enumerated
category, every record of the resulting state has non-empty keywords and an
enumerated category. -/
theorem runUpdates_recordsOK :
    ∀ (ups : List (Message × String × String)) (s : TriageState),
      (∀ u ∈ ups,
          extract_keywords (u.1.subject ++ " " ++ u.1.body) ≠ [] ∧
          u.2.1 ∈ categories) →
      recordsOK s →
      recordsOK
        (ups.foldl (fun s u => update_analytics s u.1 u.2.1 u.2.2) s) := by
  intro ups
  induction ups with
  | nil => intro s _ h; exact h
  | cons u rest ih =>
    intro s hyp h
    rw [List.foldl_cons]
    refine ih _ (fun v hv => hyp v (List.mem_cons_of_mem _ hv)) ?_
    intro r hr
    rw [update_analytics] at hr
    dsimp only at hr
    rcases List.mem_append.mp hr with h2 | h2
    · exact h r h2
    · rw [List.mem_singleton] at h2
      subst h2
      exact ⟨(hyp u (List.mem_cons_self _ _)).1,
        (hyp u (List.mem_cons_self _ _)).2⟩

/-- In any state satisfying both invariants, the reported `total_emails` of
every category equals the number of records carrying that category. -/
theorem totals_eq_counts (s : TriageState) (hinv : catKeywordsInv s)
    (hrec : recordsOK s) :
    ∀ cat : String,
      (generate_keyword_analytics s cat).2 =
        s.processed_emails.countP (fun r => r.category == cat) := by
  intro cat
  by_cases hk : s.category_keywords cat = []
  · have h0 : (generate_keyword_analytics s cat).2 = 0 := by
      simp [generate_keyword_analytics, hk]
    rw [h0]
    symm
    rw [List.countP_eq_zero]
    intro r hr hcat
    have hkeys := (hrec r hr).1
    have hflat := (hinv cat).symm
    rw [hk] at hflat
    rw [List.flatten_eq_nil_iff] at hflat
    exact hkeys
      (hflat _ (List.mem_map_of_mem _ (List.mem_filter.mpr ⟨hr, hcat⟩)))
  · simp [generate_keyword_analytics, hk]

/-- Records whose categories all lie in the three-element enumeration are
counted exactly once across the three per-category counts. -/
theorem countP_categories (l : List TriageRecord)
    (h : ∀ r ∈ l, r.category ∈ categories) :
    l.countP (fun r => r.category == "Product Support") +
      l.countP (fun r => r.category == "Billing") +
      l.countP (fun r => r.category == "General Inquiry") = l.length := by
  induction l with
  | nil => rfl
  | cons r rest ih =>
    have hr := h r (List.mem_cons_self r rest)
    have hrest := ih (fun x hx => h x (List.mem_cons_of_mem _ hx))
    rw [List.countP_cons, List.countP_cons, List.countP_cons, List.length_cons]
    have e1 : (("Product Support" : String) == "Billing") = false := by decide
    have e2 : (("Product Support" : String) == "General Inquiry") = false := by
      decide
    have e3 : (("Billing" : String) == "Product Support") = false := by decide
    have e4 : (("Billing" : String) == "General Inquiry") = false := by decide
    have e5 : (("General Inquiry" : String) == "Product Support") = false := by
      decide
    have e6 : (("General Inquiry" : String) == "Billing") = false := by decide
    rw [categories] at hr
    have g1 : (if (true = true) then (1 : Nat) else 0) = 1 := rfl
    have g0 : (if (false = true) then (1 : Nat) else 0) = 0 := rfl
    rcases List.mem_cons.mp hr with h1 | hr2
    · rw [h1, beq_self_eq_true, e1, e2, g1, g0]
      omega
    rcases List.mem_cons.mp hr2 with h1 | hr3
    · rw [h1, beq_self_eq_true, e3, e4, g1, g0]
      omega
    rcases List.mem_cons.mp hr3 with h1 | hr4
    · rw [h1, beq_self_eq_true, e5, e6, g1, g0]
      omega
    · exact absurd hr4 (List.not_mem_nil _)

/-- Counterexample to C2 as stated: one message whose subject and body
yield no extractable keyword (`"hi"`, `"ok"`) is recorded under General
Inquiry (its own fallback classification), yet the snapshot reports
`total_emails = 0` for that category — the empty keyword list takes the
else-branch — so the per-category equality and the sum invariant both fail
at N = 1. -/
theorem analytics_totals_counterexample :
    (classify_and_summarize_email ⟨"1", "hi", "x@y", "ok", "t0"⟩ .failure).1 =
      "General Inquiry" ∧
    extract_keywords (("hi" : String) ++ " " ++ "ok") = [] ∧
    (generate_keyword_analytics
        (update_analytics initState ⟨"1", "hi", "x@y", "ok", "t0"⟩
          "General Inquiry" "s")
        "General Inquiry").2 = 0 ∧
    ((update_analytics initState ⟨"1", "hi", "x@y", "ok", "t0"⟩
          "General Inquiry" "s").processed_emails.countP
        (fun r => r.category == "General Inquiry")) = 1 ∧
    analyticsTotals
        (update_analytics initState ⟨"1", "hi", "x@y", "ok", "t0"⟩
          "General Inquiry" "s") = 0 ∧
    (update_analytics initState ⟨"1", "hi", "x@y", "ok", "t0"⟩
          "General Inquiry" "s").processed_emails.length = 1 := by
  refine ⟨by decide, by decide, by decide, by decide, by decide, by decide⟩

/-- Claim C2, corrected: the reported `total_emails` of a category equals
the number of records with that category only when the category's keyword
list is non-empty; a category with records but no extracted keywords
reports 0.  Provided every recorded message yields at least one keyword
and every category comes from the enumeration, the equality holds for all
categories and the totals across the enumeration sum to the number N of
recorded messages. -/
theorem analytics_totals_eq_counts :
    ∀ ups : List (Message × String × String),
      (∀ u ∈ ups,
          extract_keywords (u.1.subject ++ " " ++ u.1.body) ≠ [] ∧
          u.2.1 ∈ categories) →
      (∀ cat : String,
          (generate_keyword_analytics (runUpdates ups) cat).2 =
            (runUpdates ups).processed_emails.countP
              (fun r => r.category == cat)) ∧
      analyticsTotals (runUpdates ups) =
        (runUpdates ups).processed_emails.length := by
  intro ups hyp
  have hinv : catKeywordsInv (runUpdates ups) :=
    runUpdates_inv ups initState (fun _ => rfl)
  have hrec : recordsOK (runUpdates ups) :=
    runUpdates_recordsOK ups initState hyp (fun r hr => absurd hr (List.not_mem_nil r))
  have hper := totals_eq_counts (runUpdates ups) hinv hrec
  refine ⟨hper, ?_⟩
  have hcats : ∀ r ∈ (runUpdates ups).processed_emails, r.category ∈ categories :=
    fun r hr => (hrec r hr).2
  have hsum := countP_categories _ hcats
  rw [analyticsTotals, categories, List.map_cons, List.map_cons, List.map_cons,
    List.map_nil, List.sum_cons, List.sum_cons, List.sum_cons, List.sum_nil,
    hper, hper, hper]
  omega

/-- Witness for the corrected C2: one Billing message with extractable
keywords. -/
theorem analytics_totals_eq_counts_witness :
    (∀ u ∈ ([(⟨"1", "Billing question", "a@b", "please refund the payment",
            "t0"⟩, "Billing", "s")] :
          List (Message × String × String)),
        extract_keywords (u.1.subject ++ " " ++ u.1.body) ≠ [] ∧
        u.2.1 ∈ categories) ∧
    analyticsTotals
        (runUpdates
          [(⟨"1", "Billing question", "a@b", "please refund the payment",
              "t0"⟩, "Billing", "s")]) =
      (runUpdates
          [(⟨"1", "Billing question", "a@b", "please refund the payment",
              "t0"⟩, "Billing", "s")]).processed_emails.length :=
  ⟨by decide,
   (analytics_totals_eq_counts
       [(⟨"1", "Billing question", "a@b", "please refund the payment",
           "t0"⟩, "Billing", "s")] (by decide)).2⟩
